import Mathlib

/-!
Verification development for the trading-squad privacy resolution and
visibility-aware aggregation engine.

The definitions below are shallow embeddings of the TypeScript sources:
  * `src/src/lib/privacy-utils.ts` (resolvePrivacySettings,
    getPerformancePrivacyLevel, parsePrivacySettings,
    parseWorkspacePrivacyPolicy)
  * `src/src/lib/privacy-resolver.ts` (resolvePrivacy's pure resolution core,
    resolveField, maxPrivacy)
  * `src/src/app/api/portfolio/history/route.ts` (SAMPLING_CONFIG,
    generateSampleDates, findClosestValue, the GET sampling loop)
  * `src/src/app/api/workspaces/[workspaceId]/portfolio/history/route.ts`
    (the GET aggregation pipeline, calculateSquadAverage, calculateSquadTotal)

Modelling conventions: JavaScript runtime values flowing through the privacy
code are modelled by an explicit `Json` inductive (JSON arrays are not needed
by any code path modelled here: the sources only ever do named-field access,
which yields `undefined` on an array, exactly as on an object without that
field, so `Json.obj []` stands in for them).  `undefined` is modelled as
`Option.none` at field-access sites; JSON `null` is `Json.null`.  Machine
floats are modelled as rationals; dates are integer millisecond timestamps
with `dayMs = 86400000`, and ISO `YYYY-MM-DD` date-key strings are modelled
by their integer day number (string comparison of ISO date keys agrees with
integer comparison of day numbers).
-/

namespace TradingSquad

/-- A JSON runtime value as the TypeScript code observes it. -/
inductive Json where
  | null : Json
  | bool (b : Bool) : Json
  | num (q : ℚ) : Json
  | str (s : String) : Json
  | obj (fields : List (String × Json)) : Json

/-- JavaScript truthiness of a JSON value. -/
def truthy : Json → Bool
  | Json.null => false
  | Json.bool b => b
  | Json.num q => q ≠ 0
  | Json.str s => s ≠ ""
  | Json.obj _ => true

/-- Named-field access `v.f`: `none` models JavaScript `undefined`
(non-objects and objects without the field). -/
def getField : Json → String → Option Json
  | Json.obj fields, name => fields.lookup name
  | _, _ => none

/-- Truthiness of a possibly-`undefined` value (`undefined` is falsy). -/
def truthyO : Option Json → Bool
  | none => false
  | some v => truthy v

/-- The JavaScript `a || b` fallback on a possibly-`undefined` `a`. -/
def jOr (a : Option Json) (b : Json) : Json :=
  match a with
  | some v => if truthy v then v else b
  | none => b

/-- The JavaScript `a ?? b` nullish coalescing on a possibly-`undefined` `a`. -/
def nullish (a : Option Json) (b : Json) : Json :=
  match a with
  | some Json.null => b
  | some v => v
  | none => b

/-- The JavaScript strict equality `v === "t"` of a runtime value against a
string literal. -/
def jsonIsStr (v : Json) (t : String) : Bool :=
  match v with
  | Json.str s => s = t
  | _ => false

/-- `Array.prototype.indexOf` on a string array applied to an arbitrary
runtime value: the index of the first strictly-equal element, `-1` if none
(a non-string value is never strictly equal to a string element). -/
def jsIndexOfAux (s : String) : List String → Int → Int
  | [], _ => -1
  | x :: xs, i => if x = s then i else jsIndexOfAux s xs (i + 1)

def jsIndexOf (l : List String) (v : Json) : Int :=
  match v with
  | Json.str s => jsIndexOfAux s l 0
  | _ => -1

/-! ### privacy-utils.ts -/

/-- A runtime `PrivacySettings` record as produced by `parsePrivacySettings`:
five named fields, each an arbitrary JSON value (the parser does not validate
enum membership, so fields are not restricted to the enum strings). -/
structure ParsedSettings where
  portfolioValue : Json
  performance : Json
  positions : Json
  activity : Json
  watchlist : Json

/-- The documented safe defaults (`DEFAULT_PRIVACY` in privacy-resolver.ts and
the `defaults` local of `parsePrivacySettings` in privacy-utils.ts). -/
def defaultSettings : ParsedSettings :=
  { portfolioValue := Json.str "approximate"
    performance := Json.str "visible"
    positions := Json.str "tickers_only"
    activity := Json.str "without_amounts"
    watchlist := Json.str "visible" }

/-- One field of `parsePrivacySettings`: `json.f || defaults.f`. -/
def parseField (j : Json) (name : String) (dflt : Json) : Json :=
  match getField j name with
  | some v => if truthy v then v else dflt
  | none => dflt

/-- `parsePrivacySettings` from privacy-utils.ts: total defensive parsing.
A falsy or non-object input returns the defaults; otherwise each field is
`json.field || default` (a truthy field value is passed through unvalidated). -/
def parsePrivacySettings (j : Json) : ParsedSettings :=
  match j with
  | Json.obj _ =>
      { portfolioValue := parseField j "portfolioValue" defaultSettings.portfolioValue
        performance := parseField j "performance" defaultSettings.performance
        positions := parseField j "positions" defaultSettings.positions
        activity := parseField j "activity" defaultSettings.activity
        watchlist := parseField j "watchlist" defaultSettings.watchlist }
  | _ => defaultSettings

/-- `WorkspacePrivacyPolicy` as produced by `parseWorkspacePrivacyPolicy`. -/
structure WorkspacePrivacyPolicy where
  minimumSharing : Option ParsedSettings
  enforcedTransparency : Json
  allowAnonymousMode : Json

/-- `parseWorkspacePrivacyPolicy` from privacy-utils.ts. -/
def parseWorkspacePrivacyPolicy (j : Json) : WorkspacePrivacyPolicy :=
  match j with
  | Json.obj _ =>
      { minimumSharing :=
          match getField j "minimumSharing" with
          | some v => if truthy v then some (parsePrivacySettings v) else none
          | none => none
        enforcedTransparency := nullish (getField j "enforcedTransparency") (Json.bool false)
        allowAnonymousMode := nullish (getField j "allowAnonymousMode") (Json.bool false) }
  | _ =>
      { minimumSharing := none
        enforcedTransparency := Json.bool false
        allowAnonymousMode := Json.bool false }

/-- The per-field disclosure scales (the `valueOrder`/`posOrder`/`actOrder`
arrays of privacy-utils.ts and the `hierarchies` record of
privacy-resolver.ts), low to high disclosure. -/
def hierarchy : String → List String
  | "portfolioValue" => ["hidden", "approximate", "exact"]
  | "performance" => ["hidden", "visible"]
  | "positions" => ["hidden", "tickers_only", "full"]
  | "activity" => ["hidden", "without_amounts", "full"]
  | "watchlist" => ["hidden", "visible"]
  | _ => []

/-- `resolvePrivacySettings` from privacy-utils.ts.  Starts from the user
defaults, replaces them wholesale by the workspace override when one exists
(the spread with a fully-populated parsed override record), and applies the
`minimumSharing` floor ONLY when `enforcedTransparency` is truthy and a
`minimumSharing` object is present. -/
def resolvePrivacySettings (userDefaults : ParsedSettings)
    (workspacePolicy : Option WorkspacePrivacyPolicy)
    (workspaceOverride : Option ParsedSettings) : ParsedSettings :=
  let settings := workspaceOverride.getD userDefaults
  match workspacePolicy with
  | none => settings
  | some wp =>
      if truthy wp.enforcedTransparency then
        match wp.minimumSharing with
        | none => settings
        | some minimum =>
            let s1 :=
              if truthy minimum.portfolioValue then
                if jsIndexOf (hierarchy "portfolioValue") settings.portfolioValue <
                    jsIndexOf (hierarchy "portfolioValue") minimum.portfolioValue then
                  { settings with portfolioValue := minimum.portfolioValue }
                else settings
              else settings
            let s2 :=
              if jsonIsStr minimum.performance "visible" && jsonIsStr s1.performance "hidden" then
                { s1 with performance := Json.str "visible" }
              else s1
            let s3 :=
              if truthy minimum.positions then
                if jsIndexOf (hierarchy "positions") s2.positions <
                    jsIndexOf (hierarchy "positions") minimum.positions then
                  { s2 with positions := minimum.positions }
                else s2
              else s2
            let s4 :=
              if truthy minimum.activity then
                if jsIndexOf (hierarchy "activity") s3.activity <
                    jsIndexOf (hierarchy "activity") minimum.activity then
                  { s3 with activity := minimum.activity }
                else s3
              else s3
            s4
      else settings

/-- `getPerformancePrivacyLevel` from privacy-utils.ts. -/
def getPerformancePrivacyLevel (settings : ParsedSettings) : String :=
  if jsonIsStr settings.performance "hidden" then "hidden"
  else if jsonIsStr settings.portfolioValue "hidden" then "hidden"
  else if jsonIsStr settings.portfolioValue "exact" && jsonIsStr settings.performance "visible" then
    "full"
  else "partial"

/-- `canRankInLeaderboard` from privacy-utils.ts. -/
def canRankInLeaderboard (settings : ParsedSettings) : Bool :=
  jsonIsStr settings.performance "visible" && jsonIsStr settings.portfolioValue "exact"

/-! ### privacy-resolver.ts -/

/-- Rank of a possibly-`undefined` runtime value on a field's scale:
`hierarchy.indexOf(value)`, where `undefined` (like any non-string) gives -1. -/
def rankOf (field : String) (v : Option Json) : Int :=
  match v with
  | some j => jsIndexOf (hierarchy field) j
  | none => -1

/-- `maxPrivacy` from privacy-resolver.ts: `aIndex > bIndex ? a : b`. -/
def maxPrivacy (field : String) (a b : Option Json) : Option Json :=
  if rankOf field b < rankOf field a then a else b

/-- The candidate of `resolveField`: `override !== undefined ? override :
userDefault`. -/
def pickValue (override userDefault : Option Json) : Option Json :=
  match override with
  | some v => some v
  | none => userDefault

/-- `resolveField` from privacy-resolver.ts. -/
def resolveField (field : String) (override userDefault minimum : Option Json) : Option Json :=
  maxPrivacy field (pickValue override userDefault) minimum

/-- The resolved record of `resolvePrivacy` (fields may be `undefined` when
the raw inputs lack them, mirroring the unvalidated `as` casts). -/
structure ResolvedPrivacyR where
  portfolioValue : Option Json
  performance : Option Json
  positions : Option Json
  activity : Option Json
  watchlist : Option Json
  source : String

/-- `DEFAULT_PRIVACY` of privacy-resolver.ts as the raw JSON object it is at
runtime. -/
def defaultPrivacyJson : Json :=
  Json.obj
    [("portfolioValue", Json.str "approximate"),
     ("performance", Json.str "visible"),
     ("positions", Json.str "tickers_only"),
     ("activity", Json.str "without_amounts"),
     ("watchlist", Json.str "visible")]

/-- The maximum-disclosure record returned under enforced transparency. -/
def enforcedResult : ResolvedPrivacyR :=
  { portfolioValue := some (Json.str "exact")
    performance := some (Json.str "visible")
    positions := some (Json.str "full")
    activity := some (Json.str "full")
    watchlist := some (Json.str "visible")
    source := "enforced" }

/-- The pure resolution core of `resolvePrivacy` from privacy-resolver.ts,
after the database fetches: `policyJson` is `workspace.privacyPolicy`,
`overrideJson` is `member.privacyOverride` (JSON `null` when absent), and
`userDefaultsJson` is `user.privacyDefaults`.  Steps 2-6 of the source:
enforced-transparency short circuit, then per-field
`resolveField(override?.f, (userDefaults || DEFAULT_PRIVACY).f,
(policy?.minimumSharing || DEFAULT_PRIVACY).f)`. -/
def resolvePrivacyCore (policyJson overrideJson userDefaultsJson : Json) : ResolvedPrivacyR :=
  if truthyO (getField policyJson "enforcedTransparency") then enforcedResult
  else
    let userDefaults := if truthy userDefaultsJson then userDefaultsJson else defaultPrivacyJson
    let minimums := jOr (getField policyJson "minimumSharing") defaultPrivacyJson
    { portfolioValue :=
        resolveField "portfolioValue" (getField overrideJson "portfolioValue")
          (getField userDefaults "portfolioValue") (getField minimums "portfolioValue")
      performance :=
        resolveField "performance" (getField overrideJson "performance")
          (getField userDefaults "performance") (getField minimums "performance")
      positions :=
        resolveField "positions" (getField overrideJson "positions")
          (getField userDefaults "positions") (getField minimums "positions")
      activity :=
        resolveField "activity" (getField overrideJson "activity")
          (getField userDefaults "activity") (getField minimums "activity")
      watchlist :=
        resolveField "watchlist" (getField overrideJson "watchlist")
          (getField userDefaults "watchlist") (getField minimums "watchlist")
      source := if truthy overrideJson then "workspace_override" else "user_default" }

/-! ### workspaces/[workspaceId]/portfolio/history/route.ts -/

/-- Milliseconds per day; `dayOf` is the ISO date key of a timestamp and
`midnight` is `setHours(0,0,0,0)`.  Integer `/` here is Euclidean division,
which for the positive divisor `dayMs` is exactly the floor division that
calendar-day truncation performs. -/
def dayMs : Int := 86400000

def dayOf (t : Int) : Int := t / dayMs

def midnight (t : Int) : Int := dayOf t * dayMs

/-- A point of a member's computed history: date key, absolute value, and
percent change from the member's first in-window snapshot. -/
structure HistPoint where
  date : Int
  value : ℚ
  percentChange : ℚ
deriving DecidableEq, Repr

/-- The raw inputs the route fetches for one workspace member: identity, the
user's `privacyDefaults` JSON, the member's `privacyOverride` JSON (JSON
`null` when unset), and the member's portfolio snapshots flattened across
active connections and accounts as (timestamp, totalValue) pairs. -/
structure MemberInput where
  userId : String
  name : String
  privacyDefaults : Json
  privacyOverride : Json
  snapshots : List (Int × ℚ)

/-- One element of the route's `membersData` array. -/
structure MemberData where
  memberId : String
  memberName : String
  privacyLevel : String
  history : List HistPoint
  isCurrentUser : Bool

/-- Insert a snapshot into the date-keyed aggregation map
(`snapshotsByDate.set(dateKey, current + snap.value)`), preserving JavaScript
Map insertion order. -/
def addSnap : List (Int × ℚ) → Int × ℚ → List (Int × ℚ)
  | [], s => [(dayOf s.1, s.2)]
  | (d, v) :: rest, s =>
      if d = dayOf s.1 then (d, v + s.2) :: rest else (d, v) :: addSnap rest s

def groupSnapsByDate (l : List (Int × ℚ)) : List (Int × ℚ) :=
  l.foldl addSnap []

/-- Ascending insertion by date (`sort((a, b) => a.date - b.date)`; the keys
are distinct, so the sorted result is unique). -/
def insertByDate (x : Int × ℚ) : List (Int × ℚ) → List (Int × ℚ)
  | [] => [x]
  | y :: ys => if x.1 < y.1 then x :: y :: ys else y :: insertByDate x ys

def sortByDate (l : List (Int × ℚ)) : List (Int × ℚ) :=
  l.foldr insertByDate []

/-- The per-member block of the route's `membersData` map: parse the member's
settings, resolve them against the workspace policy, classify the performance
privacy level, and turn the member's in-window snapshots into a history of
(date, value, percentChange-from-baseline) points. -/
def processMember (policy : WorkspacePrivacyPolicy) (callerId : String) (startDate : Int)
    (m : MemberInput) : MemberData :=
  let userDefaults := parsePrivacySettings m.privacyDefaults
  let workspaceOverride :=
    if truthy m.privacyOverride then some (parsePrivacySettings m.privacyOverride) else none
  let effectiveSettings := resolvePrivacySettings userDefaults (some policy) workspaceOverride
  let privacyLevel := getPerformancePrivacyLevel effectiveSettings
  let snaps := m.snapshots.filter (fun s => decide (startDate ≤ s.1))
  let aggregatedSnapshots := sortByDate (groupSnapsByDate snaps)
  let baseValue := ((aggregatedSnapshots.head?.map (·.2)).getD 0)
  let history := aggregatedSnapshots.map (fun s =>
    { date := s.1
      value := s.2
      percentChange := if 0 < baseValue then (s.2 - baseValue) / baseValue * 100 else 0 })
  { memberId := m.userId
    memberName := m.name
    privacyLevel := privacyLevel
    history := history
    isCurrentUser := m.userId = callerId }

/-- Sorted union of all members' history dates (`new Set` over the member
loop, then `Array.from(...).sort()`; ISO keys sort like day numbers). -/
def insertDateKey (x : Int) : List Int → List Int
  | [] => [x]
  | y :: ys =>
      if x < y then x :: y :: ys else if x = y then y :: ys else y :: insertDateKey x ys

def allHistoryDates (members : List MemberData) : List Int :=
  (members.flatMap (fun m => m.history.map (·.date))).foldr insertDateKey []

/-- `calculateSquadAverage` from the route: for each date in the sorted union,
the mean `percentChange` over members having a point at that exact date
(`history.find`), defined as 0 when no member has data there. -/
def calculateSquadAverage (members : List MemberData) : List (Int × ℚ) :=
  if members.isEmpty then []
  else
    (allHistoryDates members).map (fun date =>
      let pts := members.filterMap (fun m => m.history.find? (fun h => decide (h.date = date)))
      let sum := (pts.map (·.percentChange)).sum
      let count := pts.length
      (date, if 0 < count then sum / (count : ℚ) else 0))

/-- `calculateSquadTotal` from the route: for each date in the sorted union,
the sum of `value` over members having a point at that date. -/
def calculateSquadTotal (members : List MemberData) : List (Int × ℚ) :=
  if members.isEmpty then []
  else
    (allHistoryDates members).map (fun date =>
      let pts := members.filterMap (fun m => m.history.find? (fun h => decide (h.date = date)))
      (date, (pts.map (·.value)).sum))

/-- One element of the response's `members` listing: a hidden member's
history is replaced by the empty sequence, a visible member's is projected to
(date, percentChange). -/
structure MemberOut where
  memberId : String
  memberName : String
  privacyLevel : String
  history : List (Int × ℚ)

/-- The projection of one `membersData` entry into the response's `members`
array: a hidden member's history is emptied, a visible member's is projected
to (date, percentChange). -/
def memberOut (m : MemberData) : MemberOut :=
  { memberId := m.memberId
    memberName := m.memberName
    privacyLevel := m.privacyLevel
    history :=
      if m.privacyLevel = "hidden" then []
      else m.history.map (fun h => (h.date, h.percentChange)) }

structure SquadMetadata where
  totalMembers : Nat
  visibleMembers : Nat
  hiddenMembers : Nat

structure SquadResponse where
  squadAverage : List (Int × ℚ)
  squadTotal : List (Int × ℚ)
  members : List MemberOut
  yourHistory : List HistPoint
  metadata : SquadMetadata

/-- The pure core of the squad-history GET handler, after auth, validation and
fetching: parse the workspace policy, process every member, split off the
caller's own history, filter hidden members out of the aggregates, and shape
the response. -/
def squadHistoryGET (policyJson : Json) (callerId : String) (startDate : Int)
    (allMembers : List MemberInput) : SquadResponse :=
  let workspacePolicy := parseWorkspacePrivacyPolicy policyJson
  let membersData := allMembers.map (processMember workspacePolicy callerId startDate)
  let yourHistory := ((membersData.find? (·.isCurrentUser)).map (·.history)).getD []
  let visibleMembers := membersData.filter (fun m => decide (m.privacyLevel ≠ "hidden"))
  { squadAverage := calculateSquadAverage visibleMembers
    squadTotal := calculateSquadTotal visibleMembers
    members := membersData.map memberOut
    yourHistory := yourHistory
    metadata :=
      { totalMembers := allMembers.length
        visibleMembers := visibleMembers.length
        hiddenMembers := allMembers.length - visibleMembers.length } }

/-! ### portfolio/history/route.ts -/

/-- The closed set of look-back periods (`TimePeriod`). -/
inductive TimePeriod where
  | oneD | oneW | oneM | threeM | sixM | oneY | ytd
deriving DecidableEq, Repr

structure SamplingConfig where
  intervalDays : Int
  maxPoints : Nat
deriving DecidableEq, Repr

/-- `SAMPLING_CONFIG` from the route. -/
def SAMPLING_CONFIG : TimePeriod → SamplingConfig
  | TimePeriod.oneD => { intervalDays := 1, maxPoints := 1 }
  | TimePeriod.oneW => { intervalDays := 1, maxPoints := 7 }
  | TimePeriod.oneM => { intervalDays := 7, maxPoints := 5 }
  | TimePeriod.threeM => { intervalDays := 7, maxPoints := 13 }
  | TimePeriod.sixM => { intervalDays := 7, maxPoints := 26 }
  | TimePeriod.oneY => { intervalDays := 30, maxPoints := 12 }
  | TimePeriod.ytd => { intervalDays := 30, maxPoints := 12 }

/-- `Math.ceil(a / b)` for an integer numerator and positive denominator. -/
def ceilDiv (a b : Int) : Int := -((-a) / b)

/-- The sampling while-loop of `generateSampleDates`: starting from the
midnight-truncated period start, push dates and step by `stepMs`
(`actualInterval` days) while the date is at most `periodEnd` and fewer than
`maxPoints` dates were pushed; the fuel is the remaining point budget. -/
def sampleLoop (stepMs periodEnd : Int) : Int → Nat → List Int
  | _, 0 => []
  | current, Nat.succ k =>
      if current ≤ periodEnd then current :: sampleLoop stepMs periodEnd (current + stepMs) k
      else []

/-- The tail of `generateSampleDates` after its while-loop: read the last
loop date (the source throws a TypeError on `dates[dates.length - 1]
.getTime()` when the loop pushed nothing, modelled by `none`) and append the
midnight-truncated end date when it is not already the last one. -/
def finishDates (periodEnd : Int) (dates : List Int) : Option (List Int) :=
  match dates.getLast? with
  | none => none
  | some lastDate =>
      let endDateNormalized := midnight periodEnd
      some (if lastDate ≠ endDateNormalized then dates ++ [endDateNormalized] else dates)

/-- `generateSampleDates` from the route: evenly spaced midnight-aligned
dates from the midnight-truncated period start, stepping by
`max(1, floor(totalDays / maxPoints))` days, capped at `maxPoints` dates,
then always including the (midnight-truncated) end date. -/
def generateSampleDates (periodStart periodEnd : Int) (config : SamplingConfig) :
    Option (List Int) :=
  let totalDays := ceilDiv (periodEnd - periodStart) dayMs
  let actualInterval := max 1 (totalDays / (config.maxPoints : Int))
  finishDates periodEnd
    (sampleLoop (actualInterval * dayMs) periodEnd (midnight periodStart) config.maxPoints)

/-- The for-loop of `findClosestValue` locating the nearest grouped date key
at or before the target (`if (dateKey <= targetKey) nearestBefore = dateKey;
else break`). -/
def loopBefore (targetKey : Int) : List Int → Option Int
  | [] => none
  | d :: ds => if d ≤ targetKey then some ((loopBefore targetKey ds).getD d) else none

/-- `findClosestValue` from the route: exact grouped match (not interpolated),
else backward fill from the nearest earlier key, else forward fill from the
nearest later key, else a zero point — the three fallbacks all marked
interpolated.  `grouped` is the date-keyed aggregation map as an association
list in insertion order; `sortedDates` its keys sorted ascending.  The
source's non-null assertion `groupedData.get(k)!` is modelled by `getD (0, 0)`
(never reached when `sortedDates` lists `grouped`'s keys). -/
def findClosestValue (targetDate : Int) (grouped : List (Int × ℚ × ℚ))
    (sortedDates : List Int) : ℚ × ℚ × Bool :=
  let targetKey := dayOf targetDate
  match grouped.lookup targetKey with
  | some data => (data.1, data.2, false)
  | none =>
      match loopBefore targetKey sortedDates with
      | some b =>
          let data := ((grouped.lookup b).getD (0, 0))
          (data.1, data.2, true)
      | none =>
          match sortedDates.find? (fun d => decide (targetKey < d)) with
          | some a =>
              let data := ((grouped.lookup a).getD (0, 0))
              (data.1, data.2, true)
          | none => (0, 0, true)

/-- The plPercent computation of the GET loop: percent is 0 unless the
initial investment `value - pl` exceeds the 0.01 epsilon in magnitude, in
which case it is `pl / (value - pl) * 100`.  The source additionally clamps a
non-finite float result to 0; over exact rationals the guarded quotient is
always a finite rational, so no clamping case arises in the model. -/
def computePlPercent (value pl : ℚ) : ℚ :=
  let initialInvestment := value - pl
  if 1 / 100 < |initialInvestment| then pl / initialInvestment * 100 else 0

/-- One emitted history point of the single-user route. -/
structure UserHistPoint where
  date : Int
  value : ℚ
  pl : ℚ
  plPercent : ℚ
  isInterpolated : Bool
deriving DecidableEq, Repr

structure HistoryResult where
  history : List UserHistPoint
  actualPoints : Nat
  totalPoints : Nat
  coverage : Int
deriving DecidableEq, Repr

/-- `Math.round` on a rational: round half away from zero is JavaScript's
round-half-up toward positive infinity, `⌊q + 1/2⌋`. -/
def jsRound (q : ℚ) : Int := ⌊q + 1 / 2⌋

/-- Insert a snapshot (timestamp, value, pl) into the grouped map of the
single-user route, summing same-day snapshots across accounts. -/
def addSnapU : List (Int × ℚ × ℚ) → Int × ℚ × ℚ → List (Int × ℚ × ℚ)
  | [], s => [(dayOf s.1, s.2.1, s.2.2)]
  | (d, v, pl) :: rest, s =>
      if d = dayOf s.1 then (d, v + s.2.1, pl + s.2.2) :: rest
      else (d, v, pl) :: addSnapU rest s

def groupSnapsU (l : List (Int × ℚ × ℚ)) : List (Int × ℚ × ℚ) :=
  l.foldl addSnapU []

def insertKeyAsc (x : Int) : List Int → List Int
  | [] => [x]
  | y :: ys =>
      if x < y then x :: y :: ys else if x = y then y :: ys else y :: insertKeyAsc x ys

/-- `Array.from(groupedData.keys()).sort()` (ISO keys sort like day numbers;
the keys are distinct so the sorted list is unique). -/
def sortKeysAsc (l : List Int) : List Int :=
  l.foldr insertKeyAsc []

/-- Wrap an emitted history into the response with its data-quality metrics:
`actualPoints` counts the non-interpolated points and
`coverage = Math.round(actualPoints / totalPoints * 100)` (0 when there are
no points). -/
def mkHistoryResult (history : List UserHistPoint) : HistoryResult :=
  let actualPointCount := (history.filter (fun h => !h.isInterpolated)).length
  let totalPoints := history.length
  let coverage :=
    if 0 < totalPoints then jsRound ((actualPointCount : ℚ) / (totalPoints : ℚ) * 100)
    else 0
  { history := history
    actualPoints := actualPointCount
    totalPoints := totalPoints
    coverage := coverage }

/-- The sampling half of the single-user GET handler, given the effective
start, the current time and the fetched snapshots: group the snapshots whose
timestamp is at least the effective start, generate the sample dates, and
emit one point per sample date via `findClosestValue` with the guarded
plPercent.  `none` models the TypeError `generateSampleDates` would throw on
an empty loop result. -/
def historyCore (config : SamplingConfig) (effectiveStart now : Int)
    (snaps : List (Int × ℚ × ℚ)) : Option HistoryResult :=
  let snapshots := snaps.filter (fun s => decide (effectiveStart ≤ s.1))
  let grouped := groupSnapsU snapshots
  let sortedDates := sortKeysAsc (grouped.map (·.1))
  match generateSampleDates effectiveStart now config with
  | none => none
  | some sampleDates =>
      some (mkHistoryResult (sampleDates.map (fun sampleDate =>
        let fcv := findClosestValue sampleDate grouped sortedDates
        { date := dayOf sampleDate
          value := fcv.1
          pl := fcv.2.1
          plPercent := computePlPercent fcv.1 fcv.2.1
          isInterpolated := fcv.2.2 : UserHistPoint })))

/-- The GET handler's join-date clamping composed with the sampling core:
`joinDateStart` is the join date at midnight and the effective start is the
later of the period start and `joinDateStart`. -/
def historyGETWithJoin (config : SamplingConfig) (periodStart now joinDate : Int)
    (snaps : List (Int × ℚ × ℚ)) : Option HistoryResult :=
  let joinDateStart := midnight joinDate
  let effectiveStart := if periodStart < joinDateStart then joinDateStart else periodStart
  historyCore config effectiveStart now snaps

/-! ### Concrete instances used by counterexamples and witnesses -/

/-- User defaults hiding everything, as a raw JSON record. -/
def allHiddenJson : Json :=
  Json.obj
    [("portfolioValue", Json.str "hidden"),
     ("performance", Json.str "hidden"),
     ("positions", Json.str "hidden"),
     ("activity", Json.str "hidden"),
     ("watchlist", Json.str "hidden")]

/-- A workspace policy JSON requiring exact portfolio values but not
enforcing transparency. -/
def minExactPolicyJson : Json :=
  Json.obj
    [("minimumSharing", Json.obj [("portfolioValue", Json.str "exact")]),
     ("enforcedTransparency", Json.bool false)]

/-- A workspace policy JSON enforcing transparency with no minimumSharing. -/
def enforcedOnlyPolicyJson : Json :=
  Json.obj [("enforcedTransparency", Json.bool true)]

/-- A member whose user defaults hide performance, with one snapshot. -/
def hiddenMemberA : MemberInput :=
  { userId := "u2"
    name := "B"
    privacyDefaults := Json.obj [("performance", Json.str "hidden")]
    privacyOverride := Json.null
    snapshots := [(0, 100)] }

/-- The same member with an entirely different snapshot history. -/
def hiddenMemberB : MemberInput :=
  { userId := "u2"
    name := "B"
    privacyDefaults := Json.obj [("performance", Json.str "hidden")]
    privacyOverride := Json.null
    snapshots := [(0, 999), (dayMs, 5)] }

/-- A caller whose user defaults hide performance, with two snapshots a day
apart. -/
def c8caller : MemberInput :=
  { userId := "u1"
    name := "A"
    privacyDefaults := Json.obj [("performance", Json.str "hidden")]
    privacyOverride := Json.null
    snapshots := [(0, 100), (dayMs, 110)] }

def emptyHistoryResult : HistoryResult :=
  { history := [], actualPoints := 0, totalPoints := 0, coverage := 0 }

/-- A join date 5 days before a `now` of day 30 (at 1am, not midnight). -/
def c5joinDate : Int := 25 * dayMs + 3600000

def c5snaps : List (Int × ℚ × ℚ) := [(27 * dayMs, 1000, 50)]

/-- The full 1M sample grid, unclamped by any join date. -/
def c5grid : List Int :=
  (generateSampleDates 0 (30 * dayMs) (SAMPLING_CONFIG TimePeriod.oneM)).getD []

def c5res : HistoryResult :=
  (historyGETWithJoin (SAMPLING_CONFIG TimePeriod.oneM) 0 (30 * dayMs) c5joinDate
    c5snaps).getD emptyHistoryResult

/-- Three real snapshots inside a 30-day 1M window. -/
def c6snaps : List (Int × ℚ × ℚ) := [(0, 100, 10), (6 * dayMs, 110, 20), (12 * dayMs, 120, 30)]

def c6res : HistoryResult :=
  (historyCore (SAMPLING_CONFIG TimePeriod.oneM) 0 (30 * dayMs) c6snaps).getD
    emptyHistoryResult

/-- Snapshots exercising both plPercent branches: a near-zero initial
investment (value 1/200, pl 0) and an ordinary point. -/
def c7snaps : List (Int × ℚ × ℚ) := [(0, 1 / 200, 0), (6 * dayMs, 110, 20)]

def c7res : HistoryResult :=
  (historyCore (SAMPLING_CONFIG TimePeriod.oneM) 0 (30 * dayMs) c7snaps).getD
    emptyHistoryResult

/-! ### Rank and resolution lemmas -/

theorem rankOf_maxPrivacy_right (field : String) (a b : Option Json) :
    rankOf field b ≤ rankOf field (maxPrivacy field a b) := by
  unfold maxPrivacy
  split
  · omega
  · exact le_refl _

theorem rankOf_maxPrivacy_left (field : String) (a b : Option Json) :
    rankOf field a ≤ rankOf field (maxPrivacy field a b) := by
  unfold maxPrivacy
  split
  · exact le_refl _
  · omega

theorem maxPrivacy_eq_of_rank_lt (field : String) (a b : Option Json)
    (h : rankOf field a < rankOf field b) : maxPrivacy field a b = b := by
  unfold maxPrivacy
  rw [if_neg (by omega)]

theorem rankOf_resolveField (field : String) (o u m : Option Json) :
    rankOf field m ≤ rankOf field (resolveField field o u m) :=
  rankOf_maxPrivacy_right field (pickValue o u) m

theorem resolveField_eq_min (field : String) (o u m : Option Json)
    (h : rankOf field (pickValue o u) < rankOf field m) :
    resolveField field o u m = m :=
  maxPrivacy_eq_of_rank_lt field (pickValue o u) m h

theorem parseField_default (j : Json) (name : String) (dflt : Json)
    (_hd : truthy dflt = true) (hf : truthyO (getField j name) = false) :
    parseField j name dflt = dflt := by
  unfold parseField
  cases hg : getField j name with
  | none => rfl
  | some v =>
      rw [hg] at hf
      have hv : truthy v = false := hf
      show (if truthy v = true then v else dflt) = dflt
      rw [hv]
      simp

theorem truthy_parseField (j : Json) (name : String) (dflt : Json)
    (hd : truthy dflt = true) : truthy (parseField j name dflt) = true := by
  unfold parseField
  cases hg : getField j name with
  | none => exact hd
  | some v =>
      show truthy (if truthy v = true then v else dflt) = true
      by_cases hv : truthy v = true
      · rw [if_pos hv]; exact hv
      · rw [if_neg hv]; exact hd

/-! ### Claim theorems -/

/-- C1 (amended): in privacy-resolver.ts, whenever the workspace policy does
not enforce transparency, the resolved value of every field ranks at least as
high as the minimum used for that field (the `minimumSharing` value when
specified, falling back to `DEFAULT_PRIVACY`), whether or not an override
exists; and whenever the chosen candidate (override if present, else user
default) ranks strictly below that minimum, the resolved value equals the
minimum.  (The claim as frozen also covers privacy-utils.ts
`resolvePrivacySettings`, where it fails: see the counterexample.) -/
theorem c1_monotonic_floor (policyJson overrideJson userDefaultsJson : Json)
    (henf : truthyO (getField policyJson "enforcedTransparency") = false) :
    let minimums := jOr (getField policyJson "minimumSharing") defaultPrivacyJson
    let userDefaults := if truthy userDefaultsJson then userDefaultsJson else defaultPrivacyJson
    let r := resolvePrivacyCore policyJson overrideJson userDefaultsJson
    (rankOf "portfolioValue" (getField minimums "portfolioValue") ≤
        rankOf "portfolioValue" r.portfolioValue ∧
      (rankOf "portfolioValue"
            (pickValue (getField overrideJson "portfolioValue")
              (getField userDefaults "portfolioValue")) <
          rankOf "portfolioValue" (getField minimums "portfolioValue") →
        r.portfolioValue = getField minimums "portfolioValue")) ∧
    (rankOf "performance" (getField minimums "performance") ≤
        rankOf "performance" r.performance ∧
      (rankOf "performance"
            (pickValue (getField overrideJson "performance")
              (getField userDefaults "performance")) <
          rankOf "performance" (getField minimums "performance") →
        r.performance = getField minimums "performance")) ∧
    (rankOf "positions" (getField minimums "positions") ≤
        rankOf "positions" r.positions ∧
      (rankOf "positions"
            (pickValue (getField overrideJson "positions")
              (getField userDefaults "positions")) <
          rankOf "positions" (getField minimums "positions") →
        r.positions = getField minimums "positions")) ∧
    (rankOf "activity" (getField minimums "activity") ≤
        rankOf "activity" r.activity ∧
      (rankOf "activity"
            (pickValue (getField overrideJson "activity")
              (getField userDefaults "activity")) <
          rankOf "activity" (getField minimums "activity") →
        r.activity = getField minimums "activity")) ∧
    (rankOf "watchlist" (getField minimums "watchlist") ≤
        rankOf "watchlist" r.watchlist ∧
      (rankOf "watchlist"
            (pickValue (getField overrideJson "watchlist")
              (getField userDefaults "watchlist")) <
          rankOf "watchlist" (getField minimums "watchlist") →
        r.watchlist = getField minimums "watchlist")) := by
  intro minimums userDefaults r
  have hr : r = resolvePrivacyCore policyJson overrideJson userDefaultsJson := rfl
  rw [hr]
  unfold resolvePrivacyCore
  rw [henf]
  simp only [Bool.false_eq_true, if_false]
  exact
    ⟨⟨rankOf_resolveField _ _ _ _, fun h => resolveField_eq_min _ _ _ _ h⟩,
     ⟨rankOf_resolveField _ _ _ _, fun h => resolveField_eq_min _ _ _ _ h⟩,
     ⟨rankOf_resolveField _ _ _ _, fun h => resolveField_eq_min _ _ _ _ h⟩,
     ⟨rankOf_resolveField _ _ _ _, fun h => resolveField_eq_min _ _ _ _ h⟩,
     ⟨rankOf_resolveField _ _ _ _, fun h => resolveField_eq_min _ _ _ _ h⟩⟩

/-- C1 witness: the floor theorem applied at a concrete input (all-hidden
user defaults, no override, minimum portfolioValue exact, transparency not
enforced): the candidate ranks below the minimum and the resolved value
equals the minimum. -/
theorem c1_monotonic_floor_witness :
    truthyO (getField minExactPolicyJson "enforcedTransparency") = false ∧
    (resolvePrivacyCore minExactPolicyJson Json.null allHiddenJson).portfolioValue =
      some (Json.str "exact") := by
  refine ⟨by decide, ?_⟩
  have h := (c1_monotonic_floor minExactPolicyJson Json.null allHiddenJson (by decide)).1.2
  rw [h (by decide)]
  rfl

/-- C1 counterexample: privacy-utils.ts `resolvePrivacySettings` (also cited
by the claim) does not apply the floor when transparency is not enforced:
with user default portfolioValue hidden, minimum portfolioValue exact and
`enforcedTransparency = false`, the resolved portfolioValue stays `hidden`,
ranking strictly below the specified minimum. -/
theorem c1_floor_cex :
    let ud : ParsedSettings := { defaultSettings with portfolioValue := Json.str "hidden" }
    let pol := parseWorkspacePrivacyPolicy minExactPolicyJson
    let r := resolvePrivacySettings ud (some pol) none
    (pol.minimumSharing.map (·.portfolioValue) = some (Json.str "exact")) ∧
    r.portfolioValue = Json.str "hidden" ∧
    jsIndexOf (hierarchy "portfolioValue") r.portfolioValue <
      jsIndexOf (hierarchy "portfolioValue") (Json.str "exact") := by
  exact ⟨rfl, rfl, by decide⟩

/-- C2 (amended): in privacy-resolver.ts, a truthy `enforcedTransparency`
makes `resolvePrivacy` return the maximum-disclosure value on every field
(exact, visible, full, full, visible) with source `enforced`, regardless of
user default, override and minimum.  (The claim as frozen also covers
privacy-utils.ts `resolvePrivacySettings`, where enforced transparency does
not force maximum disclosure: see the counterexample.) -/
theorem c2_enforced_dominance (policyJson overrideJson userDefaultsJson : Json)
    (henf : truthyO (getField policyJson "enforcedTransparency") = true) :
    let r := resolvePrivacyCore policyJson overrideJson userDefaultsJson
    r.portfolioValue = some (Json.str "exact") ∧
    r.performance = some (Json.str "visible") ∧
    r.positions = some (Json.str "full") ∧
    r.activity = some (Json.str "full") ∧
    r.watchlist = some (Json.str "visible") ∧
    r.source = "enforced" := by
  intro r
  have hr : r = resolvePrivacyCore policyJson overrideJson userDefaultsJson := rfl
  rw [hr]
  unfold resolvePrivacyCore
  rw [henf]
  exact ⟨rfl, rfl, rfl, rfl, rfl, rfl⟩

/-- C2 witness: the dominance theorem at a concrete input (enforced policy,
all-hidden user defaults, all-hidden override). -/
theorem c2_enforced_dominance_witness :
    truthyO (getField enforcedOnlyPolicyJson "enforcedTransparency") = true ∧
    (resolvePrivacyCore enforcedOnlyPolicyJson allHiddenJson allHiddenJson).source =
      "enforced" :=
  ⟨by decide,
   (c2_enforced_dominance enforcedOnlyPolicyJson allHiddenJson allHiddenJson
     (by decide)).2.2.2.2.2⟩

/-- C2 counterexample: privacy-utils.ts `resolvePrivacySettings` (also cited
by the claim) does not return maximum disclosure under enforced transparency:
with `enforcedTransparency = true` and no `minimumSharing`, an all-hidden
user default resolves to all-hidden, not to the maximum-disclosure value. -/
theorem c2_enforced_cex :
    let ud := parsePrivacySettings allHiddenJson
    let pol := parseWorkspacePrivacyPolicy enforcedOnlyPolicyJson
    let r := resolvePrivacySettings ud (some pol) none
    truthy pol.enforcedTransparency = true ∧
    r.performance = Json.str "hidden" ∧
    r.portfolioValue = Json.str "hidden" ∧
    ("hidden" : String) ≠ "visible" ∧ ("hidden" : String) ≠ "exact" := by
  exact ⟨rfl, rfl, rfl, by decide, by decide⟩

/-- C4 (amended): both resolvers are total Lean functions; with no workspace
policy and no override, privacy-utils.ts `resolvePrivacySettings` returns the
user default unchanged on every field, while privacy-resolver.ts
`resolvePrivacy` substitutes `DEFAULT_PRIVACY` for the absent `minimumSharing`
and therefore floors every resolved field at rank 1 (approximate, visible,
tickers_only, without_amounts, visible) — a floor strictly above the lowest
rank, so its result need not equal the user default.  (The claim as frozen
asserts no floor is applied; see the counterexample.) -/
theorem c4_absent_policy (ud : ParsedSettings) (overrideJson userDefaultsJson : Json) :
    resolvePrivacySettings ud none none = ud ∧
    (let r := resolvePrivacyCore Json.null overrideJson userDefaultsJson
     1 ≤ rankOf "portfolioValue" r.portfolioValue ∧
     1 ≤ rankOf "performance" r.performance ∧
     1 ≤ rankOf "positions" r.positions ∧
     1 ≤ rankOf "activity" r.activity ∧
     1 ≤ rankOf "watchlist" r.watchlist) := by
  refine ⟨rfl, ?_, ?_, ?_, ?_, ?_⟩ <;>
    · show (1 : Int) ≤ _
      unfold resolvePrivacyCore
      rw [show truthyO (getField Json.null "enforcedTransparency") = false from rfl]
      simp only [Bool.false_eq_true, if_false]
      exact le_trans (by decide) (rankOf_resolveField _ _ _ _)

/-- C4 counterexample: with a null workspace policy, no override and
all-hidden user defaults, privacy-resolver.ts resolves portfolioValue to
`approximate` (the DEFAULT_PRIVACY floor), not to the user default `hidden` —
so an absent policy is not "no constraint" there. -/
theorem c4_absent_policy_cex :
    (resolvePrivacyCore Json.null Json.null allHiddenJson).portfolioValue =
      some (Json.str "approximate") ∧
    getField allHiddenJson "portfolioValue" = some (Json.str "hidden") ∧
    ("approximate" : String) ≠ "hidden" :=
  ⟨rfl, rfl, by decide⟩

/-- C9 (amended): `parsePrivacySettings` is total and never fails: a falsy or
non-object input yields the documented defaults; a missing or falsy field is
replaced by that field's documented default; and every field of the result is
truthy.  But a present truthy field value is passed through unvalidated, so
the result can hold values outside the field's enum (see the counterexample,
which refutes the claim's "no field ever holds a value outside that field's
enum"). -/
theorem c9_parse_total (j : Json) :
    (truthy (parsePrivacySettings j).portfolioValue = true ∧
     truthy (parsePrivacySettings j).performance = true ∧
     truthy (parsePrivacySettings j).positions = true ∧
     truthy (parsePrivacySettings j).activity = true ∧
     truthy (parsePrivacySettings j).watchlist = true) ∧
    ((∀ fields, j ≠ Json.obj fields) → parsePrivacySettings j = defaultSettings) ∧
    (truthyO (getField j "portfolioValue") = false →
      (parsePrivacySettings j).portfolioValue = defaultSettings.portfolioValue) ∧
    (truthyO (getField j "performance") = false →
      (parsePrivacySettings j).performance = defaultSettings.performance) ∧
    (truthyO (getField j "positions") = false →
      (parsePrivacySettings j).positions = defaultSettings.positions) ∧
    (truthyO (getField j "activity") = false →
      (parsePrivacySettings j).activity = defaultSettings.activity) ∧
    (truthyO (getField j "watchlist") = false →
      (parsePrivacySettings j).watchlist = defaultSettings.watchlist) := by
  cases j with
  | obj fields =>
      refine ⟨⟨?_, ?_, ?_, ?_, ?_⟩, fun hno => absurd rfl (hno fields),
        ?_, ?_, ?_, ?_, ?_⟩ <;>
        first
          | exact truthy_parseField _ _ _ (by decide)
          | exact fun hf => parseField_default _ _ _ (by decide) hf
  | null => exact ⟨⟨rfl, rfl, rfl, rfl, rfl⟩, fun _ => rfl,
      fun _ => rfl, fun _ => rfl, fun _ => rfl, fun _ => rfl, fun _ => rfl⟩
  | bool b => exact ⟨⟨rfl, rfl, rfl, rfl, rfl⟩, fun _ => rfl,
      fun _ => rfl, fun _ => rfl, fun _ => rfl, fun _ => rfl, fun _ => rfl⟩
  | num q => exact ⟨⟨rfl, rfl, rfl, rfl, rfl⟩, fun _ => rfl,
      fun _ => rfl, fun _ => rfl, fun _ => rfl, fun _ => rfl, fun _ => rfl⟩
  | str s => exact ⟨⟨rfl, rfl, rfl, rfl, rfl⟩, fun _ => rfl,
      fun _ => rfl, fun _ => rfl, fun _ => rfl, fun _ => rfl, fun _ => rfl⟩

/-- C9 witness: the totality theorem applied at a concrete input whose
portfolioValue field is present but falsy (the number 0): the field is
replaced by the documented default. -/
theorem c9_parse_total_witness :
    (parsePrivacySettings (Json.obj [("portfolioValue", Json.num 0)])).portfolioValue =
      defaultSettings.portfolioValue :=
  (c9_parse_total (Json.obj [("portfolioValue", Json.num 0)])).2.2.1 rfl

/-- C9 counterexample: a present truthy but invalid field value survives
parsing: `parsePrivacySettings` maps portfolioValue `"banana"` to itself, a
value outside the portfolioValue enum. -/
theorem c9_parse_cex :
    (parsePrivacySettings (Json.obj [("portfolioValue", Json.str "banana")])).portfolioValue =
      Json.str "banana" ∧
    ("banana" : String) ∉ hierarchy "portfolioValue" :=
  ⟨rfl, by decide⟩

/-! ### Aggregation lemmas -/

/-- Everything `processMember` computes except the history depends only on
the member's identity and privacy records, not on the snapshots. -/
theorem processMember_congr (policy : WorkspacePrivacyPolicy) (callerId : String)
    (startDate : Int) (m₁ m₂ : MemberInput) (hid : m₁.userId = m₂.userId)
    (hname : m₁.name = m₂.name) (hdef : m₁.privacyDefaults = m₂.privacyDefaults)
    (hov : m₁.privacyOverride = m₂.privacyOverride) :
    (processMember policy callerId startDate m₁).privacyLevel =
        (processMember policy callerId startDate m₂).privacyLevel ∧
      (processMember policy callerId startDate m₁).memberId =
        (processMember policy callerId startDate m₂).memberId ∧
      (processMember policy callerId startDate m₁).memberName =
        (processMember policy callerId startDate m₂).memberName ∧
      (processMember policy callerId startDate m₁).isCurrentUser =
        (processMember policy callerId startDate m₂).isCurrentUser := by
  unfold processMember
  rw [hid, hname, hdef, hov]
  exact ⟨rfl, rfl, rfl, rfl⟩

/-- `find?` over a list whose prefix all fails the predicate finds the first
matching element after the prefix. -/
theorem find?_append_of_prefix_false {α : Type} (p : α → Bool) (l₁ l₂ : List α) (d : α)
    (h₁ : ∀ x ∈ l₁, p x = false) (h₂ : p d = true) :
    (l₁ ++ d :: l₂).find? p = some d := by
  induction l₁ with
  | nil => simp [List.find?_cons, h₂]
  | cons a l ih =>
      have ha : p a = false := h₁ a (List.mem_cons_self a l)
      simp only [List.cons_append, List.find?_cons, ha]
      exact ih (fun x hx => h₁ x (List.mem_cons_of_mem a hx))

/-! ### Claim theorems: cross-member aggregation -/

/-- C3 (confirmed): a member whose resolved performance privacy level is
hidden never influences squadAverage or squadTotal — replacing that member's
snapshot history with any other snapshot history (identity and privacy
records unchanged) leaves both series unchanged — their per-member entry in
the response carries the empty history, and they are still counted in
metadata.totalMembers and metadata.hiddenMembers. -/
theorem c3_hidden_member_excluded (policyJson : Json) (callerId : String) (startDate : Int)
    (pre post : List MemberInput) (m₁ m₂ : MemberInput)
    (hid : m₁.userId = m₂.userId) (hname : m₁.name = m₂.name)
    (hdef : m₁.privacyDefaults = m₂.privacyDefaults)
    (hov : m₁.privacyOverride = m₂.privacyOverride)
    (hhid : (processMember (parseWorkspacePrivacyPolicy policyJson) callerId startDate
        m₁).privacyLevel = "hidden") :
    let r₁ := squadHistoryGET policyJson callerId startDate (pre ++ m₁ :: post)
    let r₂ := squadHistoryGET policyJson callerId startDate (pre ++ m₂ :: post)
    r₁.squadAverage = r₂.squadAverage ∧
    r₁.squadTotal = r₂.squadTotal ∧
    r₁.members[pre.length]? = some
      { memberId := m₁.userId
        memberName := m₁.name
        privacyLevel := "hidden"
        history := [] } ∧
    r₁.metadata.totalMembers = pre.length + 1 + post.length ∧
    1 ≤ r₁.metadata.hiddenMembers := by
  intro r₁ r₂
  have hcongr := processMember_congr (parseWorkspacePrivacyPolicy policyJson) callerId
    startDate m₁ m₂ hid hname hdef hov
  have hhid₂ : (processMember (parseWorkspacePrivacyPolicy policyJson) callerId startDate
      m₂).privacyLevel = "hidden" := hcongr.1 ▸ hhid
  have hq : ∀ m : MemberInput,
      (processMember (parseWorkspacePrivacyPolicy policyJson) callerId startDate
          m).privacyLevel = "hidden" →
      (fun d : MemberData => decide (d.privacyLevel ≠ "hidden"))
          (processMember (parseWorkspacePrivacyPolicy policyJson) callerId startDate m) =
        false := by
    intro m hm
    simp [hm]
  have hfilt :
      ((pre ++ m₁ :: post).map
          (processMember (parseWorkspacePrivacyPolicy policyJson) callerId
            startDate)).filter (fun d => decide (d.privacyLevel ≠ "hidden")) =
      ((pre ++ m₂ :: post).map
          (processMember (parseWorkspacePrivacyPolicy policyJson) callerId
            startDate)).filter (fun d => decide (d.privacyLevel ≠ "hidden")) := by
    simp only [List.map_append, List.map_cons, List.filter_append, List.filter_cons,
      hq m₁ hhid, hq m₂ hhid₂, Bool.false_eq_true, if_false]
  refine ⟨?_, ?_, ?_, ?_, ?_⟩
  · show calculateSquadAverage _ = calculateSquadAverage _
    rw [hfilt]
  · show calculateSquadTotal _ = calculateSquadTotal _
    rw [hfilt]
  · show (((pre ++ m₁ :: post).map
        (processMember (parseWorkspacePrivacyPolicy policyJson) callerId startDate)).map
          memberOut)[pre.length]? = _
    rw [List.getElem?_map, List.map_append, List.map_cons,
      List.getElem?_append_right (by simp), List.length_map]
    simp only [Nat.sub_self, List.getElem?_cons_zero, Option.map_some']
    have hout : memberOut (processMember (parseWorkspacePrivacyPolicy policyJson) callerId
        startDate m₁) =
        { memberId := m₁.userId
          memberName := m₁.name
          privacyLevel := "hidden"
          history := [] } := by
      simp [memberOut, hhid]
      exact ⟨rfl, rfl⟩
    rw [hout]
  · show (pre ++ m₁ :: post).length = pre.length + 1 + post.length
    rw [List.length_append, List.length_cons]
    omega
  · show 1 ≤ (pre ++ m₁ :: post).length -
      (((pre ++ m₁ :: post).map
          (processMember (parseWorkspacePrivacyPolicy policyJson) callerId
            startDate)).filter (fun d => decide (d.privacyLevel ≠ "hidden"))).length
    have hlen : (((pre ++ m₁ :: post).map
        (processMember (parseWorkspacePrivacyPolicy policyJson) callerId
          startDate)).filter (fun d => decide (d.privacyLevel ≠ "hidden"))).length ≤
        pre.length + post.length := by
      simp only [List.map_append, List.map_cons, List.filter_append, List.filter_cons,
        hq m₁ hhid, Bool.false_eq_true, if_false, List.length_append]
      have h1 := List.length_filter_le (fun d : MemberData => decide (d.privacyLevel ≠ "hidden"))
        (pre.map (processMember (parseWorkspacePrivacyPolicy policyJson) callerId startDate))
      have h2 := List.length_filter_le (fun d : MemberData => decide (d.privacyLevel ≠ "hidden"))
        (post.map (processMember (parseWorkspacePrivacyPolicy policyJson) callerId startDate))
      simp only [List.length_map] at h1 h2
      omega
    have htot : (pre ++ m₁ :: post).length = pre.length + post.length + 1 := by
      simp [Nat.add_comm, Nat.add_assoc, Nat.add_left_comm]
    omega

/-- C3 witness: the exclusion theorem applied to a one-member workspace whose
member hides performance: replacing that member's snapshots leaves the
(empty) aggregates unchanged, the listing entry carries the empty history,
and the member is counted. -/
theorem c3_hidden_member_excluded_witness :
    let r₁ := squadHistoryGET Json.null "u1" 0 ([] ++ hiddenMemberA :: [])
    let r₂ := squadHistoryGET Json.null "u1" 0 ([] ++ hiddenMemberB :: [])
    r₁.squadAverage = r₂.squadAverage ∧
    r₁.squadTotal = r₂.squadTotal ∧
    r₁.members[(0 : Nat)]? = some
      { memberId := "u2", memberName := "B", privacyLevel := "hidden", history := [] } ∧
    r₁.metadata.totalMembers = 0 + 1 + 0 ∧
    1 ≤ r₁.metadata.hiddenMembers :=
  c3_hidden_member_excluded Json.null "u1" 0 [] [] hiddenMemberA hiddenMemberB
    rfl rfl rfl rfl (by decide)

/-- The `isCurrentUser` flag computed by `processMember`. -/
theorem processMember_isCurrentUser (policy : WorkspacePrivacyPolicy) (callerId : String)
    (startDate : Int) (m : MemberInput) :
    (processMember policy callerId startDate m).isCurrentUser = decide (m.userId = callerId) :=
  rfl

/-- C8 (amended): the caller's own history is surfaced in the distinct
`yourHistory` field, but it is not subject to the caller's resolved
visibility: whatever the caller's resolved performance privacy level,
`yourHistory` equals the caller's full computed history (dates, values and
percent changes); only the `members` listing empties a hidden member's
(including the caller's own) history.  (The claim as frozen asserts a hidden
caller does not receive their value and percent-change series; see the
counterexample.) -/
theorem c8_your_history_unfiltered (policyJson : Json) (callerId : String) (startDate : Int)
    (pre post : List MemberInput) (m : MemberInput)
    (hm : m.userId = callerId)
    (hpre : ∀ x ∈ pre, x.userId ≠ callerId) :
    (squadHistoryGET policyJson callerId startDate (pre ++ m :: post)).yourHistory =
      (processMember (parseWorkspacePrivacyPolicy policyJson) callerId startDate m).history := by
  have hall : ∀ y ∈ pre.map (processMember (parseWorkspacePrivacyPolicy policyJson) callerId
      startDate), (fun d : MemberData => d.isCurrentUser) y = false := by
    intro y hy
    obtain ⟨x, hx, rfl⟩ := List.mem_map.mp hy
    show (processMember (parseWorkspacePrivacyPolicy policyJson) callerId startDate
      x).isCurrentUser = false
    rw [processMember_isCurrentUser]
    exact decide_eq_false (hpre x hx)
  have hyes : (fun d : MemberData => d.isCurrentUser)
      (processMember (parseWorkspacePrivacyPolicy policyJson) callerId startDate m) = true := by
    show (processMember (parseWorkspacePrivacyPolicy policyJson) callerId startDate
      m).isCurrentUser = true
    rw [processMember_isCurrentUser]
    exact decide_eq_true hm
  have hfind := find?_append_of_prefix_false (fun d : MemberData => d.isCurrentUser)
    (pre.map (processMember (parseWorkspacePrivacyPolicy policyJson) callerId startDate))
    (post.map (processMember (parseWorkspacePrivacyPolicy policyJson) callerId startDate))
    (processMember (parseWorkspacePrivacyPolicy policyJson) callerId startDate m) hall hyes
  show ((((pre ++ m :: post).map
      (processMember (parseWorkspacePrivacyPolicy policyJson) callerId startDate)).find?
        (fun d => d.isCurrentUser)).map (fun d => d.history)).getD [] = _
  rw [List.map_append, List.map_cons, hfind]
  rfl

/-- C8 witness: the theorem applied to a one-member workspace whose caller
hides performance: `yourHistory` is still that member's full history. -/
theorem c8_your_history_unfiltered_witness :
    (squadHistoryGET Json.null "u2" 0 ([] ++ hiddenMemberA :: [])).yourHistory =
      (processMember (parseWorkspacePrivacyPolicy Json.null) "u2" 0 hiddenMemberA).history :=
  c8_your_history_unfiltered Json.null "u2" 0 [] [] hiddenMemberA rfl
    (fun x hx => absurd hx (List.not_mem_nil x))

/-- C8 counterexample: a caller whose resolved performance privacy level is
hidden still receives their full value and percent-change series in
`yourHistory` (two points here), even though the same member's entry in the
`members` listing is emptied — refuting the claim that the hidden caller
"does not receive their value and percent-change series any more than
another hidden member's listing would". -/
theorem c8_hidden_caller_cex :
    let r := squadHistoryGET Json.null "u1" 0 [c8caller]
    (processMember (parseWorkspacePrivacyPolicy Json.null) "u1" 0 c8caller).privacyLevel =
      "hidden" ∧
    r.members.map (·.history) = [[]] ∧
    r.yourHistory =
      [{ date := 0, value := 100, percentChange := 0 },
       { date := 1, value := 110, percentChange := 10 }] := by
  exact ⟨rfl, rfl, by with_unfolding_all decide⟩

/-! ### Date and sampling lemmas -/

theorem dayMs_pos : (0 : Int) < dayMs := by norm_num [dayMs]

theorem midnight_le (t : Int) : midnight t ≤ t :=
  Int.ediv_mul_le t (by norm_num [dayMs])

theorem midnight_mono {a b : Int} (h : a ≤ b) : midnight a ≤ midnight b := by
  unfold midnight dayOf
  exact mul_le_mul_of_nonneg_right (Int.ediv_le_ediv dayMs_pos h) (le_of_lt dayMs_pos)

theorem midnight_dvd (t : Int) : dayMs ∣ midnight t :=
  dvd_mul_left dayMs (dayOf t)

theorem midnight_of_dvd {t : Int} (h : dayMs ∣ t) : midnight t = t :=
  Int.ediv_mul_cancel h

theorem midnight_idem (t : Int) : midnight (midnight t) = midnight t :=
  midnight_of_dvd (midnight_dvd t)

theorem dayOf_mono {a b : Int} (h : a ≤ b) : dayOf a ≤ dayOf b :=
  Int.ediv_le_ediv dayMs_pos h

theorem dayOf_midnight (t : Int) : dayOf (midnight t) = dayOf t :=
  Int.mul_ediv_cancel (dayOf t) (by norm_num [dayMs])

theorem sampleLoop_mem_bounds (step e : Int) (hstep : 0 < step) :
    ∀ (fuel : Nat) (cur : Int), ∀ d ∈ sampleLoop step e cur fuel, cur ≤ d ∧ d ≤ e := by
  intro fuel
  induction fuel with
  | zero => intro cur d hd; simp [sampleLoop] at hd
  | succ k ih =>
      intro cur d hd
      rw [show sampleLoop step e cur (k + 1) =
        if cur ≤ e then cur :: sampleLoop step e (cur + step) k else [] from rfl] at hd
      by_cases hc : cur ≤ e
      · rw [if_pos hc] at hd
        rcases List.mem_cons.mp hd with rfl | hmem
        · exact ⟨le_refl d, hc⟩
        · obtain ⟨h1, h2⟩ := ih (cur + step) d hmem
          exact ⟨by omega, h2⟩
      · rw [if_neg hc] at hd
        simp at hd

theorem sampleLoop_length_le (step e : Int) :
    ∀ (fuel : Nat) (cur : Int), (sampleLoop step e cur fuel).length ≤ fuel := by
  intro fuel
  induction fuel with
  | zero => intro cur; simp [sampleLoop]
  | succ k ih =>
      intro cur
      rw [show sampleLoop step e cur (k + 1) =
        if cur ≤ e then cur :: sampleLoop step e (cur + step) k else [] from rfl]
      by_cases hc : cur ≤ e
      · rw [if_pos hc]
        simpa using ih (cur + step)
      · rw [if_neg hc]
        simp

theorem sampleLoop_head (step e : Int) (fuel : Nat) (cur : Int) :
    ∀ z ∈ (sampleLoop step e cur fuel).head?, z = cur := by
  cases fuel with
  | zero => intro z hz; simp [sampleLoop] at hz
  | succ k =>
      intro z hz
      rw [show sampleLoop step e cur (k + 1) =
        if cur ≤ e then cur :: sampleLoop step e (cur + step) k else [] from rfl] at hz
      by_cases hc : cur ≤ e
      · rw [if_pos hc] at hz
        simp at hz
        omega
      · rw [if_neg hc] at hz
        simp at hz

theorem sampleLoop_chain (step e : Int) (hstep : 0 < step) :
    ∀ (fuel : Nat) (cur : Int), List.Chain' (· < ·) (sampleLoop step e cur fuel) := by
  intro fuel
  induction fuel with
  | zero => intro cur; simp [sampleLoop]
  | succ k ih =>
      intro cur
      rw [show sampleLoop step e cur (k + 1) =
        if cur ≤ e then cur :: sampleLoop step e (cur + step) k else [] from rfl]
      by_cases hc : cur ≤ e
      · rw [if_pos hc, List.chain'_cons']
        refine ⟨fun z hz => ?_, ih (cur + step)⟩
        rw [sampleLoop_head step e k (cur + step) z hz]
        omega
      · rw [if_neg hc]
        exact List.chain'_nil

theorem sampleLoop_dvd (step e : Int) (hs : dayMs ∣ step) :
    ∀ (fuel : Nat) (cur : Int), dayMs ∣ cur → ∀ d ∈ sampleLoop step e cur fuel, dayMs ∣ d := by
  intro fuel
  induction fuel with
  | zero => intro cur _ d hd; simp [sampleLoop] at hd
  | succ k ih =>
      intro cur hcur d hd
      rw [show sampleLoop step e cur (k + 1) =
        if cur ≤ e then cur :: sampleLoop step e (cur + step) k else [] from rfl] at hd
      by_cases hc : cur ≤ e
      · rw [if_pos hc] at hd
        rcases List.mem_cons.mp hd with rfl | hmem
        · exact hcur
        · exact ih (cur + step) (dvd_add hcur hs) d hmem
      · rw [if_neg hc] at hd
        simp at hd

theorem sampleLoop_cons (step e cur : Int) (k : Nat) (hc : cur ≤ e) :
    sampleLoop step e cur (k + 1) = cur :: sampleLoop step e (cur + step) k := by
  rw [show sampleLoop step e cur (k + 1) =
    if cur ≤ e then cur :: sampleLoop step e (cur + step) k else [] from rfl, if_pos hc]

/-- In a strictly increasing list, every element is at most the last one. -/
theorem chain'_lt_le_getLast :
    ∀ (l : List Int) (a : Int), List.Chain' (· < ·) l → l.getLast? = some a →
      ∀ x ∈ l, x ≤ a := by
  intro l
  induction l with
  | nil => intro a _ h x hx; simp at hx
  | cons b l ih =>
      intro a hchain hlast x hx
      cases l with
      | nil =>
          simp at hlast hx
          omega
      | cons c l' =>
          rw [List.getLast?_cons_cons] at hlast
          have hbc : b < c := (List.chain'_cons.mp hchain).1
          have hch := (List.chain'_cons.mp hchain).2
          rcases List.mem_cons.mp hx with rfl | hx'
          · have hca := ih a hch hlast c (List.mem_cons_self c l')
            omega
          · exact ih a hch hlast x hx'

/-- What `finishDates` guarantees, given a strictly increasing, day-aligned,
bounded loop result. -/
theorem finishDates_spec (periodEnd lb : Int) (dates l : List Int)
    (h : finishDates periodEnd dates = some l)
    (hchain : List.Chain' (· < ·) dates)
    (hall : ∀ d ∈ dates, dayMs ∣ d ∧ lb ≤ d ∧ d ≤ periodEnd) :
    l ≠ [] ∧ List.Chain' (· < ·) l ∧
    (∀ d ∈ l, dayMs ∣ d ∧ lb ≤ d ∧ d ≤ midnight periodEnd) ∧
    l.getLast? = some (midnight periodEnd) ∧
    l.length ≤ dates.length + 1 := by
  unfold finishDates at h
  cases hlast : dates.getLast? with
  | none => rw [hlast] at h; cases h
  | some lastDate =>
      rw [hlast] at h
      have hl := Option.some.inj h
      have hlastmem : lastDate ∈ dates := List.mem_of_mem_getLast? hlast
      obtain ⟨hldvd, hllb, hlle⟩ := hall lastDate hlastmem
      have hlast_le_norm : lastDate ≤ midnight periodEnd := by
        calc lastDate = midnight lastDate := (midnight_of_dvd hldvd).symm
          _ ≤ midnight periodEnd := midnight_mono hlle
      have hmem_norm : ∀ d ∈ dates, d ≤ midnight periodEnd := by
        intro d hd
        obtain ⟨hdvd, _, hde⟩ := hall d hd
        calc d = midnight d := (midnight_of_dvd hdvd).symm
          _ ≤ midnight periodEnd := midnight_mono hde
      have hlb_norm : lb ≤ midnight periodEnd := le_trans hllb hlast_le_norm
      by_cases hne : lastDate ≠ midnight periodEnd
      · rw [if_pos hne] at hl
        subst hl
        refine ⟨by simp, ?_, ?_, ?_, ?_⟩
        · refine hchain.append (List.chain'_singleton _) ?_
          intro x hx y hy
          rw [hlast] at hx
          simp at hx hy
          subst hx; subst hy
          exact lt_of_le_of_ne hlast_le_norm hne
        · intro d hd
          rcases List.mem_append.mp hd with hd' | hd'
          · obtain ⟨h1, h2, _⟩ := hall d hd'
            exact ⟨h1, h2, hmem_norm d hd'⟩
          · simp at hd'
            subst hd'
            exact ⟨midnight_dvd _, hlb_norm, le_refl _⟩
        · exact List.getLast?_concat _
        · simp
      · rw [if_neg hne] at hl
        subst hl
        rw [not_ne_iff] at hne
        refine ⟨?_, hchain, ?_, ?_, ?_⟩
        · intro heq
          rw [heq] at hlast
          cases hlast
        · intro d hd
          obtain ⟨h1, h2, _⟩ := hall d hd
          exact ⟨h1, h2, hmem_norm d hd⟩
        · rw [hlast, hne]
        · omega

/-- The full guarantee of `generateSampleDates` whenever it returns a list. -/
theorem generateSampleDates_spec (periodStart periodEnd : Int) (config : SamplingConfig)
    (l : List Int) (h : generateSampleDates periodStart periodEnd config = some l) :
    l ≠ [] ∧ List.Chain' (· < ·) l ∧
    (∀ d ∈ l, midnight d = d ∧ midnight periodStart ≤ d ∧ d ≤ midnight periodEnd) ∧
    l.getLast? = some (midnight periodEnd) ∧
    l.length ≤ config.maxPoints + 1 := by
  unfold generateSampleDates at h
  have hstep : 0 < max 1 (ceilDiv (periodEnd - periodStart) dayMs / (config.maxPoints : Int))
      * dayMs :=
    mul_pos (lt_of_lt_of_le one_pos (le_max_left _ _)) dayMs_pos
  have hsdvd : dayMs ∣ max 1 (ceilDiv (periodEnd - periodStart) dayMs /
      (config.maxPoints : Int)) * dayMs := dvd_mul_left _ _
  have hall : ∀ d ∈ sampleLoop
      (max 1 (ceilDiv (periodEnd - periodStart) dayMs / (config.maxPoints : Int)) * dayMs)
      periodEnd (midnight periodStart) config.maxPoints,
      dayMs ∣ d ∧ midnight periodStart ≤ d ∧ d ≤ periodEnd := by
    intro d hd
    obtain ⟨h1, h2⟩ := sampleLoop_mem_bounds _ _ hstep _ _ d hd
    exact ⟨sampleLoop_dvd _ _ hsdvd _ _ (midnight_dvd periodStart) d hd, h1, h2⟩
  obtain ⟨hne, hchain, hmem, hlast, hlen⟩ := finishDates_spec periodEnd (midnight periodStart)
    _ l h (sampleLoop_chain _ _ hstep _ _) hall
  refine ⟨hne, hchain, ?_, hlast, ?_⟩
  · intro d hd
    obtain ⟨h1, h2, h3⟩ := hmem d hd
    exact ⟨midnight_of_dvd h1, h2, h3⟩
  · exact le_trans hlen (by
      have := sampleLoop_length_le
        (max 1 (ceilDiv (periodEnd - periodStart) dayMs / (config.maxPoints : Int)) * dayMs)
        periodEnd config.maxPoints (midnight periodStart)
      omega)

/-- `finishDates` always succeeds on a nonempty loop result. -/
theorem finishDates_cons_isSome (periodEnd a : Int) (rest : List Int) :
    ∃ l, finishDates periodEnd (a :: rest) = some l := by
  unfold finishDates
  cases hgl : (a :: rest).getLast? with
  | none =>
      rw [List.getLast?_eq_none_iff] at hgl
      cases hgl
  | some b => exact ⟨_, rfl⟩

/-- `generateSampleDates` returns a list whenever the window is nonempty and
at least one point is allowed. -/
theorem generateSampleDates_isSome (periodStart periodEnd : Int) (config : SamplingConfig)
    (hmax : 1 ≤ config.maxPoints) (hle : periodStart ≤ periodEnd) :
    ∃ l, generateSampleDates periodStart periodEnd config = some l := by
  obtain ⟨k, hk⟩ : ∃ k, config.maxPoints = k + 1 := ⟨config.maxPoints - 1, by omega⟩
  unfold generateSampleDates
  dsimp only
  rw [hk, sampleLoop_cons _ _ _ _ (le_trans (midnight_le periodStart) hle)]
  exact finishDates_cons_isSome _ _ _

theorem mkHistoryResult_totalPoints (history : List UserHistPoint) :
    (mkHistoryResult history).totalPoints = history.length := rfl

theorem mkHistoryResult_coverage (history : List UserHistPoint) (hpos : 0 < history.length) :
    (mkHistoryResult history).coverage =
      jsRound (((mkHistoryResult history).actualPoints : ℚ) /
        ((mkHistoryResult history).totalPoints : ℚ) * 100) := by
  unfold mkHistoryResult
  dsimp only
  rw [if_pos hpos]

theorem computePlPercent_spec (v pl : ℚ) :
    (1 / 100 < |v - pl| →
      v - pl ≠ 0 ∧ computePlPercent v pl = pl / (v - pl) * 100 ∧
      computePlPercent v pl * (v - pl) = pl * 100) ∧
    (|v - pl| ≤ 1 / 100 → computePlPercent v pl = 0) := by
  unfold computePlPercent
  dsimp only
  by_cases h : 1 / 100 < |v - pl|
  · rw [if_pos h]
    have hne : v - pl ≠ 0 := by
      intro h0
      rw [h0] at h
      norm_num at h
    refine ⟨fun _ => ⟨hne, rfl, ?_⟩, fun hle => absurd h (not_lt.mpr hle)⟩
    field_simp
  · rw [if_neg h]
    exact ⟨fun h' => absurd h' h, fun _ => rfl⟩

/-! ### Claim theorems: time-series sampling -/

/-- C10 (confirmed): for every period and every effective start not after the
current time, `generateSampleDates` returns a non-empty, strictly increasing
list of midnight-aligned dates whose final element is the period end
truncated to midnight, of length at most the period's `maxPoints` plus one;
and a 1M request over a 30-day window emits exactly 6 points, one more than
its configured maximum of 5. -/
theorem c10_sample_dates (period : TimePeriod) (periodStart periodEnd : Int)
    (h : periodStart ≤ periodEnd) :
    (∃ dates, generateSampleDates periodStart periodEnd (SAMPLING_CONFIG period) = some dates ∧
      dates ≠ [] ∧ List.Chain' (· < ·) dates ∧ (∀ d ∈ dates, midnight d = d) ∧
      dates.getLast? = some (midnight periodEnd) ∧
      dates.length ≤ (SAMPLING_CONFIG period).maxPoints + 1) ∧
    (generateSampleDates 0 (30 * dayMs) (SAMPLING_CONFIG TimePeriod.oneM)).map
      List.length = some 6 := by
  constructor
  · have hmax : 1 ≤ (SAMPLING_CONFIG period).maxPoints := by cases period <;> decide
    obtain ⟨l, hl⟩ := generateSampleDates_isSome periodStart periodEnd _ hmax h
    obtain ⟨h1, h2, h3, h4, h5⟩ := generateSampleDates_spec _ _ _ _ hl
    exact ⟨l, hl, h1, h2, fun d hd => (h3 d hd).1, h4, h5⟩
  · decide

/-- C10 witness: the invariants at a concrete 1W window whose end is not
midnight-aligned. -/
theorem c10_sample_dates_witness :
    (∃ dates, generateSampleDates 0 (3 * dayMs + 7) (SAMPLING_CONFIG TimePeriod.oneW) =
        some dates ∧
      dates ≠ [] ∧ List.Chain' (· < ·) dates ∧ (∀ d ∈ dates, midnight d = d) ∧
      dates.getLast? = some (midnight (3 * dayMs + 7)) ∧
      dates.length ≤ (SAMPLING_CONFIG TimePeriod.oneW).maxPoints + 1) ∧
    (generateSampleDates 0 (30 * dayMs) (SAMPLING_CONFIG TimePeriod.oneM)).map
      List.length = some 6 :=
  c10_sample_dates TimePeriod.oneW 0 (3 * dayMs + 7) (by decide)

/-- C5 (amended): the sampler never emits a point dated before the member's
join date: the window start is clamped to `max(period start, midnight of
join date)` before any sample date is generated, so every emitted point's
date key is at least the join date's day.  There is no pre-join zero-point
branch in the code (the claim's zero-value, `isInterpolated = false`
pre-join points do not exist; see the counterexample). -/
theorem c5_clamped_to_join (config : SamplingConfig) (periodStart now joinDate : Int)
    (snaps : List (Int × ℚ × ℚ)) (res : HistoryResult)
    (h : historyGETWithJoin config periodStart now joinDate snaps = some res) :
    ∀ p ∈ res.history, dayOf joinDate ≤ p.date := by
  unfold historyGETWithJoin at h
  dsimp only at h
  have hjoin : midnight joinDate ≤
      (if periodStart < midnight joinDate then midnight joinDate else periodStart) := by
    split
    · exact le_refl _
    · omega
  unfold historyCore at h
  dsimp only at h
  cases hgen : generateSampleDates
      (if periodStart < midnight joinDate then midnight joinDate else periodStart) now
      config with
  | none => rw [hgen] at h; cases h
  | some sampleDates =>
      rw [hgen] at h
      have hres := (Option.some.inj h).symm
      subst hres
      intro p hp
      obtain ⟨d, hd, rfl⟩ := List.mem_map.mp hp
      show dayOf joinDate ≤ dayOf d
      obtain ⟨_, _, hmem, _, _⟩ := generateSampleDates_spec _ _ _ _ hgen
      have h1 : midnight joinDate ≤ d := by
        have h2 := (hmem d hd).2.1
        have h3 : midnight (midnight joinDate) ≤
            midnight (if periodStart < midnight joinDate then midnight joinDate
              else periodStart) := midnight_mono hjoin
        rw [midnight_idem] at h3
        exact le_trans h3 h2
      have := dayOf_mono h1
      rwa [dayOf_midnight] at this

set_option maxRecDepth 8000 in
/-- C5 witness: the clamping theorem at the 5-days-before-now 1M scenario,
instantiated at the first emitted point: it is dated on or after the join
day (day 25). -/
theorem c5_clamped_to_join_witness :
    dayOf c5joinDate ≤
      (c5res.history.headD
        { date := 0, value := 0, pl := 0, plPercent := 0, isInterpolated := false }).date :=
  c5_clamped_to_join (SAMPLING_CONFIG TimePeriod.oneM) 0 (30 * dayMs) c5joinDate c5snaps
    c5res (by with_unfolding_all rfl) _ (by with_unfolding_all decide)

/-- C5 counterexample: a member who joined 5 days before `now`, queried over
a 30-day 1M window: the full period grid has sample dates before the join
date (day 0 among them), but the emitted series contains no point at all at
those dates — let alone a zero-value, non-interpolated one; every emitted
point is dated on or after the join day. -/
theorem c5_prejoin_cex :
    (0 : Int) ∈ c5grid ∧ (0 : Int) < c5joinDate ∧
    ¬ (∀ d ∈ c5grid, d < c5joinDate →
        ∃ p ∈ c5res.history, p.date = dayOf d ∧ p.value = 0 ∧ p.pl = 0 ∧
          p.isInterpolated = false) ∧
    (∀ p ∈ c5res.history, 25 ≤ p.date) := by
  with_unfolding_all decide

/-- C6 (amended): a 1M window contains at most 6 sample points (`maxPoints`
5 plus the always-appended end date), not 12; in general
`coverage = round(actualPoints / totalPoints * 100)` over the emitted
points, e.g. 3 real snapshots in a full 6-point 1M window give coverage 50.
(The claim's 12-point 1M window and resulting coverage 25 are refuted by the
counterexample.) -/
theorem c6_coverage_formula (config : SamplingConfig) (effectiveStart now : Int)
    (snaps : List (Int × ℚ × ℚ)) (res : HistoryResult)
    (h : historyCore config effectiveStart now snaps = some res) :
    res.coverage = jsRound ((res.actualPoints : ℚ) / (res.totalPoints : ℚ) * 100) ∧
    1 ≤ res.totalPoints ∧ res.totalPoints ≤ config.maxPoints + 1 := by
  unfold historyCore at h
  dsimp only at h
  cases hgen : generateSampleDates effectiveStart now config with
  | none => rw [hgen] at h; cases h
  | some sampleDates =>
      rw [hgen] at h
      obtain ⟨hne, _, _, _, hlen⟩ := generateSampleDates_spec _ _ _ _ hgen
      have hres := (Option.some.inj h).symm
      subst hres
      have hpos : 0 < sampleDates.length := List.length_pos.mpr hne
      refine ⟨mkHistoryResult_coverage _ (by simpa using hpos), ?_, ?_⟩
      · rw [mkHistoryResult_totalPoints, List.length_map]
        exact hpos
      · rw [mkHistoryResult_totalPoints, List.length_map]
        exact hlen

/-- C6 witness: the coverage formula at the concrete 3-snapshot 1M input. -/
theorem c6_coverage_formula_witness :
    c6res.coverage = jsRound ((c6res.actualPoints : ℚ) / (c6res.totalPoints : ℚ) * 100) ∧
    1 ≤ c6res.totalPoints ∧
    c6res.totalPoints ≤ (SAMPLING_CONFIG TimePeriod.oneM).maxPoints + 1 :=
  c6_coverage_formula (SAMPLING_CONFIG TimePeriod.oneM) 0 (30 * dayMs) c6snaps c6res
    (by with_unfolding_all rfl)

/-- C6 counterexample: with 3 real snapshots in a full 30-day 1M window the
sampler emits 6 points, not 12, and the reported coverage is
round(3/6*100) = 50, not round(3/12*100) = 25. -/
theorem c6_twelve_point_cex :
    c6res.totalPoints = 6 ∧ c6res.actualPoints = 3 ∧ c6res.coverage = 50 ∧
    c6res.totalPoints ≠ 12 ∧ c6res.coverage ≠ 25 := by
  with_unfolding_all decide

/-- C7 (confirmed): every emitted point's plPercent is the guarded quotient:
when the initial investment `value - pl` exceeds the 0.01 epsilon in
magnitude, plPercent equals `pl / (value - pl) * 100` with a provably
non-zero denominator (so the division is genuine and its result finite in
the rational model); otherwise plPercent is 0.  The computation is a total
function — no exception and no non-finite value can be emitted. -/
theorem c7_plpercent_guarded (config : SamplingConfig) (effectiveStart now : Int)
    (snaps : List (Int × ℚ × ℚ)) (res : HistoryResult)
    (h : historyCore config effectiveStart now snaps = some res) :
    ∀ p ∈ res.history,
      (1 / 100 < |p.value - p.pl| →
        p.value - p.pl ≠ 0 ∧ p.plPercent = p.pl / (p.value - p.pl) * 100 ∧
        p.plPercent * (p.value - p.pl) = p.pl * 100) ∧
      (|p.value - p.pl| ≤ 1 / 100 → p.plPercent = 0) := by
  unfold historyCore at h
  dsimp only at h
  cases hgen : generateSampleDates effectiveStart now config with
  | none => rw [hgen] at h; cases h
  | some sampleDates =>
      rw [hgen] at h
      have hres := (Option.some.inj h).symm
      subst hres
      intro p hp
      obtain ⟨d, hd, rfl⟩ := List.mem_map.mp hp
      exact computePlPercent_spec _ _

set_option maxRecDepth 8000 in
/-- C7 witness: the guard theorem instantiated at the first emitted point of
a concrete input whose initial investment (1/200) is below the epsilon: its
plPercent is 0. -/
theorem c7_plpercent_guarded_witness :
    (c7res.history.headD
      { date := 0, value := 0, pl := 0, plPercent := 1, isInterpolated := false }).plPercent =
      0 :=
  ((c7_plpercent_guarded (SAMPLING_CONFIG TimePeriod.oneM) 0 (30 * dayMs) c7snaps c7res
      (by with_unfolding_all rfl)) _ (by with_unfolding_all decide)).2
    (by with_unfolding_all decide)

end TradingSquad
